import Mathlib

/-!
Shallow embedding of the Skill Development subsystem
(`src/agents/skill_dev.py`, class `SkillDevelopmentAgent`) of the
`ai_edu_coach_project` repository, together with proofs settling the
frozen claims about it.

Modelling conventions:
* Python `float` is modelled as `ℚ`; `round(x, 2)` is modelled with
  Mathlib's `round` (`round2` below).  Python rounds exact halves to
  even while `round` rounds halves up; no value in this development
  sits on an exact half, so the two agree on everything proved here.
* Python `dict`s keyed by strings are modelled as association lists in
  insertion order (`AList`), matching Python's documented dict order.
* The agent's `skill_records` store holds values of two different
  shapes (assessment records created by `identify_skills`, and
  skill-progress records created by `track_skill_progress`); the store
  is a `List Record` in insertion order, and a dict access on a record
  that lacks the accessed key is modelled as a `keyError`.
* `__init__` never creates `self.progress_records`, so that attribute
  is modelled as `Option (List ProgressRecord)` starting at `none`;
  the item assignment in `track_progress` on the missing attribute is
  an `attributeError`.
* Timestamps (`datetime.now()`) only feed record ids and `last_attempt`
  / `timestamp` fields that no verified property reads; they are
  omitted from the record structures.
-/

deriving instance DecidableEq for Except

set_option maxRecDepth 100000

namespace SkillDev

/-- Association list with string keys, modelling a Python `dict` in
insertion order. -/
abbrev AList (α : Type) := List (String × α)

/-- `d.get(k)` (`None` when absent): first binding for `k`. -/
def alget {α : Type} (l : AList α) (k : String) : Option α :=
  (l.find? (fun p => p.1 == k)).map Prod.snd

/-- `d.get(k, default)`. -/
def algetD {α : Type} (l : AList α) (k : String) (d : α) : α :=
  (alget l k).getD d

/-- `d[k] = v`: replace the first binding in place, else append. -/
def alset {α : Type} : AList α → String → α → AList α
  | [], k, v => [(k, v)]
  | (k', v') :: rest, k, v =>
    if k' == k then (k, v) :: rest else (k', v') :: alset rest k v

/-! ### The `Student` pydantic model (`src/models/pydantic_models.py`)

Only the fields the skill-development agent reads are carried
(`student.id` and `student.progress`); the pydantic model has no
`preferences` field, so `getattr(student, "preferences", {})` in
`_determine_exercise_type` always yields the empty dict. -/

structure Student where
  id : String
  progress : AList ℚ
deriving Repr, DecidableEq

/-! ### Regular expressions

The taxonomy patterns use only a tiny regex sublanguage: literal
characters, `\d`, `\s`, `.`, the class `[a-z]`, and the quantifiers
`+` and `*`.  Patterns are transcribed into this AST; matching is
case-insensitive (`re.IGNORECASE`) which, as every pattern literal is
lower case, is modelled by lowering the subject string first. -/

inductive RItem where
  | lit (c : Char)
  | digit
  | space
  | anychar
  | range (lo hi : Char)
deriving Repr, DecidableEq

inductive Quant where
  | one
  | star
  | plus
deriving Repr, DecidableEq

structure RTok where
  item : RItem
  quant : Quant
deriving Repr, DecidableEq

abbrev Regex := List RTok

def matchItem : RItem → Char → Bool
  | .lit c, a => a == c
  | .digit, a => a.isDigit
  | .space, a => a == ' ' || a == '\t' || a == '\n' || a == '\r' || a == '\x0b' || a == '\x0c'
  | .anychar, a => a != '\n'
  | .range lo hi, a => lo ≤ a && a ≤ hi

/-- Kleene-star step: succeed via the continuation `k`, or consume one
character matching `p` and repeat. -/
def starRun (p : Char → Bool) (k : List Char → Bool) : List Char → Bool
  | [] => k []
  | c :: cs => k (c :: cs) || (p c && starRun p k cs)

/-- Does the token list match some prefix of `s`? -/
def matchHere : List RTok → List Char → Bool
  | [], _ => true
  | ⟨it, .one⟩ :: ts, s =>
    match s with
    | [] => false
    | c :: cs => matchItem it c && matchHere ts cs
  | ⟨it, .plus⟩ :: ts, s =>
    match s with
    | [] => false
    | c :: cs => matchItem it c && starRun (matchItem it) (matchHere ts) cs
  | ⟨it, .star⟩ :: ts, s => starRun (matchItem it) (matchHere ts) s

/-- `re.search(pattern, s, re.IGNORECASE)`: a match may start at any
position.  `s` is expected already lowered by the caller. -/
def reSearch (r : Regex) (s : String) : Bool :=
  s.data.tails.any (matchHere r)

/-- Literal-word regex (each character matched exactly once). -/
def rlits (s : String) : Regex := s.data.map (fun c => ⟨.lit c, .one⟩)

def rDigits : RTok := ⟨.digit, .plus⟩
def rSpaces : RTok := ⟨.space, .star⟩
def rChar (c : Char) : RTok := ⟨.lit c, .one⟩
def rAnyPlus : RTok := ⟨.anychar, .plus⟩
def rLowerAlpha : RTok := ⟨.range 'a' 'z', .one⟩

/-- Python `"needle" in hay` (substring test). -/
def pyIn (needle hay : String) : Bool :=
  hay.data.tails.any (fun t => needle.data.isPrefixOf t)

/-- Python `str.lower()` (ASCII-relevant part). -/
def lowerStr (s : String) : String := ⟨s.data.map Char.toLower⟩

/-! ### Skill taxonomies (`_create_default_taxonomies`)

Loaded unchanged from the JSON files the agent itself writes on first
run, so the in-memory taxonomies equal the defaults below.  Every
default entry defines `level`, `description`, `keywords`, `patterns`
(and never `exercise_templates`); `level` is kept optional to mirror
the `skill_info.get("level", tier)` read. -/

structure SkillInfo where
  level : Option String
  description : String
  keywords : List String
  patterns : List Regex
deriving Repr, DecidableEq

abbrev Taxonomy := AList (AList SkillInfo)

def mathTaxonomy : Taxonomy :=
  [("arithmetic",
    [("addition",
      { level := some "beginner", description := "Ability to add numbers",
        keywords := ["add", "sum", "plus", "addition"],
        patterns := [[rDigits, rSpaces, rChar '+', rSpaces, rDigits]] }),
     ("subtraction",
      { level := some "beginner", description := "Ability to subtract numbers",
        keywords := ["subtract", "minus", "difference", "subtraction"],
        patterns := [[rDigits, rSpaces, rChar '-', rSpaces, rDigits]] }),
     ("multiplication",
      { level := some "intermediate", description := "Ability to multiply numbers",
        keywords := ["multiply", "product", "times", "multiplication"],
        patterns := [[rDigits, rSpaces, rChar '*', rSpaces, rDigits],
                     [rDigits, rSpaces, rChar '×', rSpaces, rDigits]] }),
     ("division",
      { level := some "intermediate", description := "Ability to divide numbers",
        keywords := ["divide", "quotient", "division"],
        patterns := [[rDigits, rSpaces, rChar '/', rSpaces, rDigits],
                     [rDigits, rSpaces, rChar '÷', rSpaces, rDigits]] })]),
   ("algebra",
    [("equations",
      { level := some "intermediate", description := "Ability to solve equations",
        keywords := ["equation", "solve", "unknown", "variable"],
        patterns := [[rLowerAlpha, rSpaces, rChar '=', rSpaces, rDigits],
                     rlits "solve for " ++ [rLowerAlpha]] }),
     ("expressions",
      { level := some "intermediate",
        description := "Ability to work with algebraic expressions",
        keywords := ["expression", "simplify", "expand", "factor"],
        patterns := [rlits "simplify", rlits "expand", rlits "factor"] })]),
   ("geometry",
    [("area",
      { level := some "intermediate",
        description := "Ability to calculate area of shapes",
        keywords := ["area", "square units", "square feet", "square meters"],
        patterns := [rlits "area of", rlits "find the area"] }),
     ("perimeter",
      { level := some "intermediate",
        description := "Ability to calculate perimeter of shapes",
        keywords := ["perimeter", "circumference", "distance around"],
        patterns := [rlits "perimeter of", rlits "find the perimeter"] })])]

def languageTaxonomy : Taxonomy :=
  [("reading",
    [("comprehension",
      { level := some "intermediate",
        description := "Ability to understand and interpret text",
        keywords := ["comprehend", "understand", "interpret", "meaning"],
        patterns := [rlits "what does " ++ [rAnyPlus] ++ rlits " mean",
                     rlits "main idea"] }),
     ("vocabulary",
      { level := some "intermediate", description := "Knowledge and use of words",
        keywords := ["vocabulary", "word meaning", "definition", "synonym"],
        patterns := [rlits "define the word", rlits "meaning of"] })]),
   ("writing",
    [("grammar",
      { level := some "intermediate", description := "Correct use of grammar rules",
        keywords := ["grammar", "sentence structure", "syntax", "punctuation"],
        patterns := [rlits "correct grammar", rlits "proper sentence"] }),
     ("composition",
      { level := some "advanced", description := "Ability to compose coherent text",
        keywords := ["compose", "write", "essay", "paragraph", "composition"],
        patterns := [rlits "write an essay", rlits "compose a paragraph"] })])]

def scienceTaxonomy : Taxonomy :=
  [("scientific_method",
    [("hypothesis",
      { level := some "intermediate",
        description := "Ability to formulate testable hypotheses",
        keywords := ["hypothesis", "predict", "if-then", "testable"],
        patterns := [rlits "form a hypothesis",
                     rlits "if " ++ [rAnyPlus] ++ rlits " then"] }),
     ("experimentation",
      { level := some "intermediate",
        description := "Ability to design and conduct experiments",
        keywords := ["experiment", "test", "variable", "control"],
        patterns := [rlits "design an experiment", rlits "control group"] })]),
   ("biology",
    [("cells",
      { level := some "intermediate",
        description := "Understanding of cell structure and function",
        keywords := ["cell", "organelle", "membrane", "nucleus"],
        patterns := [rlits "cell structure",
                     rlits "function of " ++ [rAnyPlus] ++ rlits " in a cell"] }),
     ("ecosystems",
      { level := some "intermediate",
        description := "Understanding of ecosystem dynamics",
        keywords := ["ecosystem", "food web", "habitat", "species"],
        patterns := [rlits "food chain", rlits "ecosystem balance"] })])]

def defaultTaxonomies : AList Taxonomy :=
  [("math", mathTaxonomy), ("language", languageTaxonomy), ("science", scienceTaxonomy)]

/-! ### Runtime data model -/

/-- A skill dict.  The canned entries built by `_map_skills_for_subject`
carry only `id`, `name` and `gap_level`; entries appended by the
content augmentation in `identify_skills` additionally carry
`category` and `level`.  `Option` models key presence. -/
structure Skill where
  id : String
  name : String
  gap_level : ℚ
  category : Option String
  level : Option String
deriving Repr, DecidableEq

/-- Record stored by `identify_skills` under an assessment id. -/
structure AssessmentRecord where
  student_id : String
  subject : String
  current_level : ℚ
  tier : String
  skills : List Skill
deriving Repr, DecidableEq

/-- One entry of `exercise_results` passed to `track_skill_progress`
(a dict read with `result.get("score", 0)` / `ex.get("id")`). -/
structure ExResult where
  id : Option String
  score : Option ℚ
deriving Repr, DecidableEq

/-- Record stored by `track_skill_progress` into the same
`skill_records` store; it has neither a `"subject"` nor a `"skills"`
key. -/
structure SkillProgressRecord where
  student_id : String
  skill_id : String
  exercise_count : ℕ
  average_score : ℚ
  progress_level : ℚ
  completed_exercises : List (Option String)
deriving Repr, DecidableEq

/-- A value of the heterogeneous `self.skill_records` store. -/
inductive Record where
  | assessment (a : AssessmentRecord)
  | skillProgress (p : SkillProgressRecord)
deriving Repr, DecidableEq

/-- Record `track_progress` tries to store into
`self.progress_records`. -/
structure ProgressRecord where
  student_id : String
  exercise_id : String
  skill_id : String
  skill_name : String
  subject : String
  completion_status : ℚ
  feedback : Option String
deriving Repr, DecidableEq

/-- Per-skill learning-history entry (`_update_learning_history`);
`last_attempt` (a timestamp) is omitted, and feedback entries keep
only their `content` string. -/
structure HistEntry where
  attempts : ℕ
  completions : List ℚ
  average_completion : ℚ
  feedback : List String
deriving Repr, DecidableEq

def emptyHistEntry : HistEntry :=
  { attempts := 0, completions := [], average_completion := 0, feedback := [] }

/-- Exceptions the modelled code can raise. -/
inductive PyErr where
  | keyError
  | attributeError
deriving Repr, DecidableEq

/-- The mutable state of a `SkillDevelopmentAgent`.
`progress_records := none` models that `__init__` never creates the
attribute; `learning_histories` is the lazily created
`history_{student_id} → subject → skill_id` nesting. -/
structure AgentState where
  skill_records : List Record
  skill_taxonomies : AList Taxonomy
  progress_records : Option (List ProgressRecord)
  learning_histories : AList (AList (AList HistEntry))
deriving Repr, DecidableEq

/-- State of a freshly constructed agent (`__init__` on a fresh
storage directory: default taxonomies written and loaded back). -/
def initState : AgentState :=
  { skill_records := [], skill_taxonomies := defaultTaxonomies,
    progress_records := none, learning_histories := [] }

/-! ### Numeric helpers -/

/-- Python `round(q, 2)` (see the tie-breaking caveat in the header). -/
def round2 (q : ℚ) : ℚ := (round (q * 100) : ℤ) / 100

/-- Python `int(q)` (truncation toward zero). -/
def pyInt (q : ℚ) : ℤ := if q < 0 then -⌊-q⌋ else ⌊q⌋

/-! ### `_map_skills_for_subject` -/

def baseSkill (i n : String) (g : ℚ) : Skill :=
  { id := i, name := n, gap_level := g, category := none, level := none }

def mapSkillsForSubject (subject tier : String) : List Skill :=
  if subject == "math" then
    if tier == "beginner" then
      [baseSkill "math_basic_arithmetic" "Basic Arithmetic" (2/10),
       baseSkill "math_fractions" "Fractions" (5/10),
       baseSkill "math_decimals" "Decimals" (4/10)]
    else if tier == "intermediate" then
      [baseSkill "math_algebra" "Algebra" (3/10),
       baseSkill "math_geometry" "Geometry" (4/10),
       baseSkill "math_statistics" "Statistics" (6/10)]
    else if tier == "advanced" then
      [baseSkill "math_calculus" "Calculus" (5/10),
       baseSkill "math_linear_algebra" "Linear Algebra" (7/10),
       baseSkill "math_probability" "Probability Theory" (4/10)]
    else []
  else if subject == "science" then
    if tier == "beginner" then
      [baseSkill "science_basic_concepts" "Basic Science Concepts" (3/10),
       baseSkill "science_observation" "Scientific Observation" (4/10),
       baseSkill "science_classification" "Classification Skills" (5/10)]
    else if tier == "intermediate" then
      [baseSkill "science_hypothesis" "Hypothesis Formation" (4/10),
       baseSkill "science_experimentation" "Experimentation" (5/10),
       baseSkill "science_data_analysis" "Data Analysis" (6/10)]
    else if tier == "advanced" then
      [baseSkill "science_research" "Research Methods" (5/10),
       baseSkill "science_critical_analysis" "Critical Analysis" (6/10),
       baseSkill "science_scientific_writing" "Scientific Writing" (7/10)]
    else []
  else []

/-! ### `identify_skills` -/

/-- Tier derivation from `student.progress.get(subject, 0.0)`. -/
def tierFor (lvl : ℚ) : String :=
  if lvl < 3/10 then "beginner"
  else if lvl < 7/10 then "intermediate"
  else "advanced"

/-- `f"{subject}_{skill_name.lower().replace(' ', '_')}"` (the
replaced needle is a single character, so a character map is exact). -/
def normName (nm : String) : String :=
  ⟨nm.data.map (fun c => if Char.toLower c == ' ' then '_' else Char.toLower c)⟩

/-- Keyword/pattern match of one taxonomy skill against `content`. -/
def skillMatches (content : String) (info : SkillInfo) : Bool :=
  info.keywords.any (fun k => pyIn (lowerStr k) (lowerStr content)) ||
  info.patterns.any (fun p => reSearch p (lowerStr content))

/-- The `for skill in skills: … break` update: lower the gap of the
first skill whose name matches case-insensitively. -/
def updateFirstByNameMin : List Skill → String → List Skill
  | [], _ => []
  | s :: rest, nm =>
    if lowerStr s.name == lowerStr nm then
      { s with gap_level := min s.gap_level (2/10) } :: rest
    else s :: updateFirstByNameMin rest nm

/-- Body of the inner taxonomy loop of `identify_skills` for one
`(category, skill_name, skill_info)` entry. -/
def augmentOne (subject tier cat nm : String) (info : SkillInfo) (content : String)
    (skills : List Skill) : List Skill :=
  if skillMatches content info then
    if skills.any (fun s => lowerStr s.name == lowerStr nm) then
      updateFirstByNameMin skills nm
    else
      skills ++ [{ id := subject ++ "_" ++ normName nm, name := nm,
                   gap_level := 3/10, category := some cat,
                   level := some (info.level.getD tier) }]
  else skills

/-- The two nested taxonomy loops of `identify_skills`. -/
def augmentSkills (subject tier : String) (tax : Taxonomy) (content : String)
    (skills : List Skill) : List Skill :=
  tax.foldl (fun acc ci =>
    ci.2.foldl (fun acc2 si => augmentOne subject tier ci.1 si.1 si.2 content acc2) acc)
    skills

/-- `identify_skills(student, subject, content)`: build the skill
list, store a new assessment record, return the list.
`if content:` is false both for `None` and for the empty string. -/
def identifySkills (st : AgentState) (student : Student) (subject : String)
    (content : Option String) : List Skill × AgentState :=
  let current_level := algetD student.progress subject 0
  let tier := tierFor current_level
  let skills0 := mapSkillsForSubject subject tier
  let skills :=
    match content with
    | none => skills0
    | some c =>
      if c.isEmpty then skills0
      else
        let tax := algetD st.skill_taxonomies (lowerStr subject) []
        augmentSkills subject tier tax c skills0
  let rcd : AssessmentRecord :=
    { student_id := student.id, subject := subject, current_level := current_level,
      tier := tier, skills := skills }
  (skills, { st with skill_records := st.skill_records ++ [.assessment rcd] })

/-! ### Learning history (`_get_learning_history`, `_update_learning_history`) -/

/-- `_get_learning_history`: returns the per-subject history dict and
the state with the nested keys lazily created. -/
def getLearningHistory (st : AgentState) (student_id subject : String) :
    AList HistEntry × AgentState :=
  let key := "history_" ++ student_id
  let sh := algetD st.learning_histories key []
  let hist := algetD sh subject []
  (hist, { st with learning_histories := alset st.learning_histories key (alset sh subject hist) })

/-- `_update_learning_history`.  `if feedback:` is false for `None`
and for the empty string. -/
def updateLearningHistory (st : AgentState) (student_id subject skill_id : String)
    (completion_status : ℚ) (feedback : Option String) : AgentState :=
  let key := "history_" ++ student_id
  let sh := algetD st.learning_histories key []
  let subj := algetD sh subject []
  let entry := algetD subj skill_id emptyHistEntry
  let completions := entry.completions ++ [completion_status]
  let entry' : HistEntry :=
    { attempts := entry.attempts + 1, completions := completions,
      average_completion := completions.sum / (completions.length : ℚ),
      feedback :=
        (match feedback with
         | some f => if f.isEmpty then entry.feedback else entry.feedback ++ [f]
         | none => entry.feedback) }
  let histories := alset st.learning_histories key (alset sh subject (alset subj skill_id entry'))
  { st with learning_histories := histories }

/-! ### Gap adjustment (`_update_skill_gap`) -/

/-- The arithmetic applied to a matched skill's gap:
`round(max(0.0, current_gap - completion_status * 0.2), 2)`. -/
def adjustGap (current_gap completion_status : ℚ) : ℚ :=
  round2 (max 0 (current_gap - completion_status * (2/10)))

/-- The inner skill loop of `_update_skill_gap`: the `break` stops
after the first skill with the given id inside one record. -/
def updateFirstSkillGap : List Skill → String → ℚ → List Skill
  | [], _, _ => []
  | s :: rest, skill_id, cs =>
    if s.id == skill_id then { s with gap_level := adjustGap s.gap_level cs } :: rest
    else s :: updateFirstSkillGap rest skill_id cs

/-- The outer record loop of `_update_skill_gap`.  No `break` leaves
the outer loop, so every matching assessment record is processed.
Reading `assessment["subject"]` on a skill-progress record of the same
student raises `KeyError`, aborting the loop there: already-processed
records keep their updates, later records are untouched. -/
def updateSkillGapRecords : List Record → String → String → String → ℚ →
    List Record × Option PyErr
  | [], _, _, _, _ => ([], none)
  | .assessment a :: rest, sid, subj, skid, cs =>
    let a' := if a.student_id == sid && a.subject == subj then
                { a with skills := updateFirstSkillGap a.skills skid cs }
              else a
    let (rest', e) := updateSkillGapRecords rest sid subj skid cs
    (.assessment a' :: rest', e)
  | .skillProgress p :: rest, sid, subj, skid, cs =>
    if p.student_id == sid then (.skillProgress p :: rest, some .keyError)
    else
      let (rest', e) := updateSkillGapRecords rest sid subj skid cs
      (.skillProgress p :: rest', e)

/-- `_update_skill_gap(student, subject, skill_id, completion_status)`. -/
def updateSkillGap (st : AgentState) (student_id subject skill_id : String)
    (cs : ℚ) : AgentState × Option PyErr :=
  let r := updateSkillGapRecords st.skill_records student_id subject skill_id cs
  ({ st with skill_records := r.1 }, r.2)

/-! ### `track_progress` -/

/-- Success payload of `track_progress` (`progress_id` and the
timestamp are omitted). -/
structure ProgressResult where
  student_id : String
  subject : String
  previous_progress : ℚ
  new_progress : ℚ
  skill_name : String
  completion_status : ℚ
deriving Repr, DecidableEq

/-- Return value of `track_progress`: either the
`{"error": "Exercise not found"}` payload or the success dict. -/
inductive TrackResult where
  | notFound
  | success (r : ProgressResult)
deriving Repr, DecidableEq

/-- The exercise-resolution scan of `track_progress`: first assessment
record of the student containing a skill whose
`f"exercise_{skill['id']}"` is a prefix of `exercise_id`.  Reading
`assessment["skills"]` on a skill-progress record of the student
raises `KeyError`. -/
def findExercise : List Record → String → String →
    Except PyErr (Option (String × String × String))
  | [], _, _ => .ok none
  | .assessment a :: rest, sid, eid =>
    if a.student_id == sid then
      match a.skills.find? (fun sk => eid.startsWith ("exercise_" ++ sk.id)) with
      | some sk => .ok (some (sk.id, sk.name, a.subject))
      | none => findExercise rest sid eid
    else findExercise rest sid eid
  | .skillProgress p :: rest, sid, eid =>
    if p.student_id == sid then .error .keyError else findExercise rest sid eid

/-- `track_progress(student, exercise_id, completion_status, feedback)`.
Returns the result (or the raised exception), the student (whose
`progress` dict the code mutates), and the agent state as mutated so
far.  On the success path the very first write,
`self.progress_records[progress_id] = …`, hits the attribute that
`__init__` never created. -/
def trackProgress (st : AgentState) (student : Student) (exercise_id : String)
    (completion_status : ℚ) (feedback : Option String) :
    Except PyErr TrackResult × Student × AgentState :=
  match findExercise st.skill_records student.id exercise_id with
  | .error e => (.error e, student, st)
  | .ok none => (.ok .notFound, student, st)
  | .ok (some (skill_id, skill_name, subject)) =>
    match st.progress_records with
    | none => (.error .attributeError, student, st)
    | some prs =>
      let pr : ProgressRecord :=
        { student_id := student.id, exercise_id := exercise_id, skill_id := skill_id,
          skill_name := skill_name, subject := subject,
          completion_status := completion_status, feedback := feedback }
      let st1 := { st with progress_records := some (prs ++ [pr]) }
      let current_progress := algetD student.progress subject 0
      let new_progress := min (current_progress + completion_status * (5/100)) 1
      let student' := { student with progress := alset student.progress subject new_progress }
      let st2 := updateLearningHistory st1 student.id subject skill_id completion_status feedback
      let r := updateSkillGap st2 student.id subject skill_id completion_status
      match r.2 with
      | some err => (.error err, student', r.1)
      | none =>
        (.ok (.success
          { student_id := student.id, subject := subject,
            previous_progress := current_progress, new_progress := new_progress,
            skill_name := skill_name, completion_status := completion_status }),
         student', r.1)

/-! ### `track_skill_progress` -/

/-- The subject-resolution scan of `track_skill_progress`: first
assessment record of the student containing the skill id and having a
truthy (non-empty) subject; assessment records whose subject is the
empty string leave the loop variable falsy, so scanning continues.
Reading `assessment["skills"]` on a skill-progress record of the
student raises `KeyError`. -/
def findSubject : List Record → String → String → Except PyErr (Option String)
  | [], _, _ => .ok none
  | .assessment a :: rest, sid, skid =>
    if a.student_id == sid then
      if a.skills.any (fun sk => sk.id == skid) && !a.subject.isEmpty then
        .ok (some a.subject)
      else findSubject rest sid skid
    else findSubject rest sid skid
  | .skillProgress p :: rest, sid, skid =>
    if p.student_id == sid then .error .keyError else findSubject rest sid skid

/-- Feedback string built by `track_skill_progress`; the `%.1f`
rendering of the average score is approximated by a plain decimal
rendering of the rounded tenths (no claim reads this string). -/
def avgFeedbackMsg (n : ℕ) (avg : ℚ) : String :=
  "Completed " ++ toString n ++ " exercises with average score "
    ++ toString (round (avg * 10)) ++ "/10 tenths%"

/-- `track_skill_progress(student, skill_id, exercise_results)`.
The record is stored into `skill_records` *before* the subject scan,
so the scan (and the later `_update_skill_gap`) see it. -/
def trackSkillProgress (st : AgentState) (student : Student) (skill_id : String)
    (exercise_results : List ExResult) :
    Except PyErr SkillProgressRecord × AgentState :=
  let scores := exercise_results.map (fun r => r.score.getD 0)
  let avg_score := if scores.isEmpty then 0 else scores.sum / (scores.length : ℚ)
  let progress_level := min 1 (avg_score / 100)
  let rcd : SkillProgressRecord :=
    { student_id := student.id, skill_id := skill_id,
      exercise_count := exercise_results.length, average_score := avg_score,
      progress_level := progress_level,
      completed_exercises := exercise_results.map (·.id) }
  let st1 := { st with skill_records := st.skill_records ++ [.skillProgress rcd] }
  match findSubject st1.skill_records student.id skill_id with
  | .error e => (.error e, st1)
  | .ok none => (.ok rcd, st1)
  | .ok (some subject) =>
    let st2 := updateLearningHistory st1 student.id subject skill_id progress_level
      (some (avgFeedbackMsg exercise_results.length avg_score))
    let r := updateSkillGap st2 student.id subject skill_id progress_level
    match r.2 with
    | some err => (.error err, r.1)
    | none => (.ok rcd, r.1)

/-! ### `_calculate_difficulty` -/

/-- `level_factors.get(skill_level.lower(), 0.0)`. -/
def levelFactor (skill_level : String) : ℚ :=
  if lowerStr skill_level == "beginner" then -(1/10)
  else if lowerStr skill_level == "intermediate" then 0
  else if lowerStr skill_level == "advanced" then 1/10
  else 0

def calculateDifficulty (gap_level progress_level : ℚ) (skill_level : String)
    (previous_attempts : ℕ) : ℚ :=
  let base_difficulty := gap_level
  let progress_factor := progress_level * (1/2)
  let level_factor := levelFactor skill_level
  let attempt_factor := min ((previous_attempts : ℚ) * (5/100)) (2/10)
  round2 (min (max (base_difficulty + progress_factor + level_factor + attempt_factor) (1/10)) 1)

/-! ### `_determine_exercise_type`, `_calculate_estimated_time`,
`_get_skill_resources` -/

/-- `_determine_exercise_type`.  The pydantic `Student` model has no
`preferences` attribute, so `getattr(student, "preferences", {})` is
always `{}`, `preferred_type` is `None`, and the tier default is
returned (`default_types.get(skill_level, "multiple_choice")`). -/
def determineExerciseType (skill : Skill) (_student : Student) : String :=
  let skill_level := skill.level.getD "beginner"
  if skill_level == "beginner" then "multiple_choice"
  else if skill_level == "intermediate" then "short_answer"
  else if skill_level == "advanced" then "project"
  else "multiple_choice"

def baseTimeFor (exercise_type : String) : ℕ :=
  if exercise_type == "multiple_choice" then 5
  else if exercise_type == "matching" then 7
  else if exercise_type == "fill_in_blank" then 8
  else if exercise_type == "short_answer" then 10
  else if exercise_type == "problem_solving" then 15
  else if exercise_type == "essay" then 25
  else if exercise_type == "project" then 45
  else if exercise_type == "research" then 30
  else 10

/-- `int(base_time * (1 + difficulty))`. -/
def calculateEstimatedTime (difficulty : ℚ) (exercise_type : String) : ℤ :=
  pyInt ((baseTimeFor exercise_type : ℚ) * (1 + difficulty))

structure Resource where
  title : String
  rtype : String
  difficulty : String
  url : String
deriving Repr, DecidableEq

/-- `skill_name.lower().replace(' ', '-')` used in resource URLs. -/
def urlName (nm : String) : String :=
  ⟨nm.data.map (fun c => if Char.toLower c == ' ' then '-' else Char.toLower c)⟩

def getSkillResources (subject skill_name skill_level : String) : List Resource :=
  let tutorial : Resource :=
    { title := skill_name ++ " Tutorial", rtype := "article", difficulty := skill_level,
      url := "https://example.com/" ++ subject ++ "/" ++ urlName skill_name }
  let video : Resource :=
    { title := skill_name ++ " Video Lesson", rtype := "video", difficulty := skill_level,
      url := "https://example.com/videos/" ++ subject ++ "/" ++ urlName skill_name }
  let practice : Resource :=
    { title := skill_name ++ " Practice Problems", rtype := "practice",
      difficulty := skill_level,
      url := "https://example.com/practice/" ++ subject ++ "/" ++ urlName skill_name }
  (if skill_level == "intermediate" || skill_level == "advanced"
   then [tutorial, video] else [tutorial]) ++ [practice]

/-! ### `recommend_exercises` -/

/-- Insert into a descending-by-gap list, after strictly larger gaps
and before equal ones. -/
def insertGapDesc (s : Skill) : List Skill → List Skill
  | [] => [s]
  | t :: rest =>
    if s.gap_level < t.gap_level then t :: insertGapDesc s rest
    else s :: t :: rest

/-- The stable descending sort
`skill_gaps.sort(key=lambda x: x.get("gap_level", 0), reverse=True)`
(Python's list sort is stable, and `reverse=True` keeps equal elements
in their prior relative order; insertion from the right with
insertion before equal gaps realises exactly that order, which the
lemmas `sortGapDesc_perm`, `sortGapDesc_pairwise` and
`sortGapDesc_filter_eq` below characterise). -/
def sortGapDesc : List Skill → List Skill
  | [] => []
  | s :: rest => insertGapDesc s (sortGapDesc rest)

/-- An exercise dict built by `recommend_exercises`.  The free-text
`description` field is omitted: it is a presentation string built by
`_generate_exercise_description` from a random template choice and a
Python `str()` rendering of the history dict, and no claim concerns
it. -/
structure Exercise where
  id : String
  skill_id : String
  skill_name : String
  difficulty : ℚ
  subject : String
  category : String
  exercise_type : String
  estimated_time_minutes : ℤ
  resources : List Resource
deriving Repr, DecidableEq

/-- One iteration of the exercise-construction loop of
`recommend_exercises`; `idx` is `len(exercises)` at that point. -/
def mkExercise (subject : String) (student : Student) (history : AList HistEntry)
    (idx : ℕ) (skill : Skill) : Exercise :=
  let skill_name := skill.name
  let skill_level := skill.level.getD "beginner"
  let skill_category := skill.category.getD "general"
  let attempts := ((alget history skill.id).map (·.attempts)).getD 0
  let difficulty := calculateDifficulty skill.gap_level
    (algetD student.progress subject 0) skill_level attempts
  let exercise_type := determineExerciseType skill student
  { id := "exercise_" ++ skill.id ++ "_" ++ toString idx,
    skill_id := skill.id, skill_name := skill_name, difficulty := difficulty,
    subject := subject, category := skill_category, exercise_type := exercise_type,
    estimated_time_minutes := calculateEstimatedTime difficulty exercise_type,
    resources := getSkillResources subject skill_name skill_level }

/-- The candidate-selection rule of `recommend_exercises`: skills with
`gap_level > 0.4`, or all identified skills when none qualify. -/
def candidateSkills (skills : List Skill) : List Skill :=
  let skill_gaps := skills.filter (fun s => decide ((4:ℚ)/10 < s.gap_level))
  if skill_gaps.isEmpty then skills else skill_gaps

/-- `recommend_exercises(student, subject, count, content)`. -/
def recommendExercises (st : AgentState) (student : Student) (subject : String)
    (count : ℕ) (content : Option String) : List Exercise × AgentState :=
  let p := identifySkills st student subject content
  let target_skills := (sortGapDesc (candidateSkills p.1)).take count
  let h := getLearningHistory p.2 student.id subject
  (target_skills.enum.map (fun q => mkExercise subject student h.1 q.1 q.2), h.2)

/-! ### `generate_skill_development_plan` -/

structure TimelineEntry where
  week : ℕ
  skill_id : String
  skill_name : String
  focus_areas : List String
  target_improvement : ℚ
deriving Repr, DecidableEq

structure DevelopmentPlan where
  student_id : String
  subject : String
  current_level : ℚ
  target_level : ℚ
  duration_weeks : ℕ
  priority_skills : List String
  timeline : List TimelineEntry
deriving Repr, DecidableEq

/-- `generate_skill_development_plan(student, subject)`.  The skill
dicts never carry a `focus_areas` key, so
`skill.get("focus_areas", [])` is always `[]`. -/
def generatePlan (st : AgentState) (student : Student) (subject : String) :
    DevelopmentPlan × AgentState :=
  let p := identifySkills st student subject none
  let prioritized := sortGapDesc p.1
  let top := prioritized.take 5
  let timeline := top.enum.map (fun q =>
    ({ week := q.1 + 1, skill_id := q.2.id, skill_name := q.2.name,
       focus_areas := [], target_improvement := 2/10 } : TimelineEntry))
  let current_level := algetD student.progress subject 0
  ({ student_id := student.id, subject := subject, current_level := current_level,
     target_level := min 1 (current_level + 3/10),
     duration_weeks := timeline.length,
     priority_skills := top.map (·.id), timeline := timeline }, p.2)

/-! ### Invariant checkers and scan predicates used by the statements -/

/-- `0.0 <= gap_level <= 1.0` for one skill dict. -/
def gapInRange (s : Skill) : Bool :=
  decide (0 ≤ s.gap_level) && decide (s.gap_level ≤ 1)

/-- The gap-level invariant for one stored record (skill-progress
records carry no skills). -/
def recInv : Record → Bool
  | .assessment a => a.skills.all gapInRange
  | .skillProgress _ => true

/-- The gap-level invariant over the whole `skill_records` store. -/
def gapInv (recs : List Record) : Bool := recs.all recInv

/-- No skill-progress record of this student is in the store (such a
record would make the scans of `track_progress` / `_update_skill_gap`
raise `KeyError`). -/
def noProgressRecordsFor (recs : List Record) (sid : String) : Bool :=
  recs.all (fun r => match r with
    | .skillProgress p => !(p.student_id == sid)
    | .assessment _ => true)

/-- No assessment record of the student resolves the exercise id by
the `exercise_{skill_id}` prefix rule. -/
def noExerciseMatch (recs : List Record) (sid eid : String) : Bool :=
  recs.all (fun r => match r with
    | .assessment a =>
      !(a.student_id == sid) ||
        a.skills.all (fun sk => !(eid.startsWith ("exercise_" ++ sk.id)))
    | .skillProgress _ => true)

/-- A skill-progress record's `score` inputs are all nonnegative. -/
def scoresNonneg (results : List ExResult) : Bool :=
  results.all (fun r => decide (0 ≤ r.score.getD 0))

/-! ### Concrete fixtures used by witnesses and counterexamples -/

/-- The student of the spec's end-to-end scenario:
`progress = {"math": 0.2}`. -/
def student1 : Student := { id := "s1", progress := [("math", 2/10)] }

/-- Agent state after one `identify_skills(student1, "math")` call. -/
def stMath : AgentState := (identifySkills initState student1 "math" none).2

/-- A `(student, subject)` assessment record holding one `Fractions`
skill with gap `0.5`, used to exhibit duplicate-record behaviour. -/
def fractionsRecord : AssessmentRecord :=
  { student_id := "s1", subject := "math", current_level := 2/10, tier := "beginner",
    skills := [baseSkill "math_fractions" "Fractions" (5/10)] }

/-- A store holding two duplicate copies of `fractionsRecord`, as left
behind by two redundant `identify_skills` calls. -/
def dupState : AgentState :=
  { skill_records := [.assessment fractionsRecord, .assessment fractionsRecord],
    skill_taxonomies := defaultTaxonomies, progress_records := none,
    learning_histories := [] }

/-! ## Helper lemmas about `round2` and `adjustGap` -/

lemma round2_mono {a b : ℚ} (h : a ≤ b) : round2 a ≤ round2 b := by
  unfold round2
  have h1 : round (a * 100) ≤ round (b * 100) := by
    rw [round_eq, round_eq]
    exact Int.floor_mono (by linarith)
  have h2 : ((round (a * 100) : ℤ) : ℚ) ≤ ((round (b * 100) : ℤ) : ℚ) := by
    exact_mod_cast h1
  linarith

lemma round2_intCast (n : ℤ) : round2 ((n : ℚ) / 100) = (n : ℚ) / 100 := by
  unfold round2
  rw [div_mul_cancel₀ _ (by norm_num : (100:ℚ) ≠ 0), round_intCast]

lemma round2_zero : round2 0 = 0 := by
  have := round2_intCast 0
  norm_num at this
  simpa using this

lemma round2_one : round2 1 = 1 := by
  have := round2_intCast 100
  norm_num at this
  simpa using this

lemma round2_tenth : round2 (1/10) = 1/10 := by
  have := round2_intCast 10
  norm_num at this
  simpa using this

lemma adjustGap_nonneg (g cs : ℚ) : 0 ≤ adjustGap g cs := by
  have := round2_mono (le_max_left 0 (g - cs * (2/10)))
  rw [round2_zero] at this
  exact this

lemma adjustGap_le_one {g cs : ℚ} (hg : g ≤ 1) (hcs : 0 ≤ cs) : adjustGap g cs ≤ 1 := by
  have hx : max 0 (g - cs * (2/10)) ≤ 1 := by
    have : g - cs * (2/10) ≤ 1 := by nlinarith
    exact max_le (by norm_num) this
  have := round2_mono hx
  rw [round2_one] at this
  exact this

lemma adjustGap_le_self {g cs : ℚ} (hg : 0 ≤ g) (hround : round2 g = g) (hcs : 0 ≤ cs) :
    adjustGap g cs ≤ g := by
  have hx : max 0 (g - cs * (2/10)) ≤ g := by
    have : g - cs * (2/10) ≤ g := by nlinarith
    exact max_le hg this
  have := round2_mono hx
  rwa [hround] at this

/-! ## Helper lemmas about the scans -/

lemma findExercise_none {recs : List Record} {sid eid : String}
    (h1 : noProgressRecordsFor recs sid = true)
    (h2 : noExerciseMatch recs sid eid = true) :
    findExercise recs sid eid = .ok none := by
  induction recs with
  | nil => rfl
  | cons r rest ih =>
    cases r with
    | assessment a =>
      simp only [noProgressRecordsFor, noExerciseMatch, List.all_cons,
        Bool.and_eq_true] at h1 h2
      rw [findExercise]
      by_cases hs : a.student_id == sid
      · simp only [hs, if_true]
        have ha := h2.1
        simp only [noExerciseMatch, hs, Bool.not_true, Bool.false_or] at ha
        have hfind : a.skills.find? (fun sk => eid.startsWith ("exercise_" ++ sk.id)) = none := by
          rw [List.find?_eq_none]
          intro sk hsk
          have := List.all_eq_true.mp ha sk hsk
          simpa using this
        rw [hfind]
        exact ih h1.2 h2.2
      · simp only [hs, if_false]
        exact ih h1.2 h2.2
    | skillProgress p =>
      simp only [noProgressRecordsFor, noExerciseMatch, List.all_cons,
        Bool.and_eq_true] at h1 h2
      rw [findExercise]
      have hp : (p.student_id == sid) = false := by
        simpa using h1.1
      simp only [hp, if_false]
      exact ih h1.2 h2.2

/-! ## C1: the success path of `track_progress` crashes -/

/-- C1 (code bug).  On the input where the exercise id resolves to the
`Fractions` skill of the stored assessment record, `track_progress`
raises `AttributeError` instead of storing a progress entry and
returning the before/after progress values: `__init__` never creates
`self.progress_records`, and the success path's first write is
`self.progress_records[progress_id] = progress_record`.  All state is
still as before the call when the exception propagates. -/
theorem C1_trackProgress_success_path_attributeError :
    trackProgress stMath student1 "exercise_math_fractions_0" 1 none
      = (.error .attributeError, student1, stMath) := by
  with_unfolding_all decide

/-! ## C2: gap adjustment does not stop at the first matching record -/

/-- C2 (counterexample).  With two duplicate `(s1, math)` assessment
records each holding the `math_fractions` skill at gap `0.5`,
`_update_skill_gap` with completion `1.0` rewrites the gap in BOTH
records to `0.3`; the claim that the second (duplicate) record's gap
is left unchanged at `0.5` is false. -/
theorem C2_counterexample_duplicate_record_updated :
    (updateSkillGap dupState "s1" "math" "math_fractions" 1).1.skill_records
      = [.assessment { fractionsRecord with
            skills := [baseSkill "math_fractions" "Fractions" (3/10)] },
         .assessment { fractionsRecord with
            skills := [baseSkill "math_fractions" "Fractions" (3/10)] }]
    ∧ ((3:ℚ)/10) ≠ 5/10 := by
  constructor
  · with_unfolding_all decide
  · norm_num

/-- C2 (amended).  When `_update_skill_gap` is applied for
`(student, subject, skillId)` over a store holding no skill-progress
record of that student, it updates the gap of the FIRST skill with
that id inside EVERY assessment record matching the student and
subject (the `break` only leaves the inner skill loop), and leaves
every other record and skill unchanged; within one record, skills
after the first match are untouched. -/
theorem C2_amended_every_matching_record_updated :
    (∀ (recs : List Record) (sid subj skid : String) (cs : ℚ),
      noProgressRecordsFor recs sid = true →
      updateSkillGapRecords recs sid subj skid cs =
        (recs.map (fun r => match r with
          | .assessment a =>
            .assessment (if a.student_id == sid && a.subject == subj then
              { a with skills := updateFirstSkillGap a.skills skid cs } else a)
          | .skillProgress p => .skillProgress p), none))
    ∧ (∀ (xs : List Skill) (s : Skill) (ys : List Skill) (skid : String) (cs : ℚ),
        (∀ x ∈ xs, x.id ≠ skid) → s.id = skid →
        updateFirstSkillGap (xs ++ s :: ys) skid cs =
          xs ++ { s with gap_level := adjustGap s.gap_level cs } :: ys) := by
  constructor
  · intro recs sid subj skid cs h
    induction recs with
    | nil => rfl
    | cons r rest ih =>
      simp only [noProgressRecordsFor, List.all_cons, Bool.and_eq_true] at h
      cases r with
      | assessment a =>
        rw [updateSkillGapRecords, ih h.2]
        rfl
      | skillProgress p =>
        have hp : (p.student_id == sid) = false := by simpa using h.1
        rw [updateSkillGapRecords, ih h.2]
        simp [hp]
  · intro xs s ys skid cs hxs hs
    induction xs with
    | nil =>
      simp only [List.nil_append, updateFirstSkillGap]
      rw [if_pos (by simpa using hs)]
    | cons x rest ih =>
      have hx : (x.id == skid) = false := by
        simpa using hxs x (List.mem_cons_self x rest)
      simp only [List.cons_append, updateFirstSkillGap]
      rw [if_neg (by simp [hx])]
      exact congrArg (x :: ·) (ih (fun y hy => hxs y (List.mem_cons_of_mem x hy)))

/-- Witness for the amended C2, instantiated at the duplicate-record
store and at a one-skill list. -/
theorem C2_amended_witness :
    (updateSkillGapRecords [.assessment fractionsRecord, .assessment fractionsRecord]
        "s1" "math" "math_fractions" 1 =
      (([.assessment fractionsRecord, .assessment fractionsRecord] : List Record).map
        (fun r => match r with
          | .assessment a =>
            .assessment (if a.student_id == "s1" && a.subject == "math" then
              { a with skills := updateFirstSkillGap a.skills "math_fractions" 1 } else a)
          | .skillProgress p => .skillProgress p), none))
    ∧ updateFirstSkillGap ([] ++ baseSkill "math_fractions" "Fractions" (5/10) :: [])
        "math_fractions" 1 =
      [] ++ { baseSkill "math_fractions" "Fractions" (5/10) with
              gap_level := adjustGap (baseSkill "math_fractions" "Fractions" (5/10)).gap_level 1 } :: [] :=
  ⟨C2_amended_every_matching_record_updated.1
      [.assessment fractionsRecord, .assessment fractionsRecord]
      "s1" "math" "math_fractions" 1 (by with_unfolding_all decide),
   C2_amended_every_matching_record_updated.2 []
      (baseSkill "math_fractions" "Fractions" (5/10)) [] "math_fractions" 1
      (by simp) rfl⟩

/-! ## C3: `track_skill_progress` never returns -/

/-- C3 (code bug).  `track_skill_progress` stores its own
skill-progress record into `skill_records` before scanning that same
store, and that record has no `"skills"`/`"subject"` key, so the call
raises `KeyError` instead of returning the computed record — both when
an owning subject exists (the error comes from `_update_skill_gap`
reaching the freshly stored record) and when none does (the error
comes from the subject scan itself). -/
theorem C3_trackSkillProgress_keyError :
    (trackSkillProgress stMath student1 "math_fractions"
        [{ id := some "e1", score := some 80 }]).1 = .error .keyError
    ∧ (trackSkillProgress initState student1 "math_fractions" []).1 = .error .keyError := by
  constructor
  · with_unfolding_all decide
  · with_unfolding_all decide

/-! ## C4: unresolvable exercise ids produce the error payload and no
state change -/

/-- C4.  If no stored assessment record of the student contains a
skill whose `exercise_{skill_id}` is a prefix of the exercise id (and
the store holds no skill-progress record of the student, which would
crash the scan instead), `track_progress` returns the explicit
`{"error": "Exercise not found"}` payload and leaves the student's
progress, the record store, the progress-record attribute and the
learning histories exactly unchanged. -/
theorem C4_trackProgress_notFound_state_unchanged
    (st : AgentState) (student : Student) (eid : String) (cs : ℚ) (fb : Option String)
    (h1 : noProgressRecordsFor st.skill_records student.id = true)
    (h2 : noExerciseMatch st.skill_records student.id eid = true) :
    trackProgress st student eid cs fb = (.ok .notFound, student, st) := by
  unfold trackProgress
  rw [findExercise_none h1 h2]

/-- Witness for C4: a store with the three canned beginner math skills
and an exercise id matching none of them. -/
theorem C4_trackProgress_notFound_witness :
    trackProgress stMath student1 "exercise_unknown_0" 1 none
      = (.ok .notFound, student1, stMath) :=
  C4_trackProgress_notFound_state_unchanged stMath student1 "exercise_unknown_0" 1 none
    (by with_unfolding_all decide) (by with_unfolding_all decide)

/-! ## C5: the difficulty formula and its clamping -/

/-- C5.  For every gap level, progress level, skill-level string and
previous-attempt count, `_calculate_difficulty` computes
`round(clamp(gap_level + 0.5 * progress_level + level_factor
+ min(previous_attempts * 0.05, 0.2), 0.1, 1.0), 2)` with
`level_factor` equal to `-0.1` for beginner, `0.0` for intermediate,
`+0.1` for advanced and `0.0` for any other level string (the lookup
lower-cases its key first); consequently the result always lies in
`[0.1, 1.0]`. -/
theorem C5_difficulty_formula_and_bounds (g p : ℚ) (lvl : String) (n : ℕ) :
    calculateDifficulty g p lvl n =
      round2 (min (max (g + (1/2) * p +
        (if lowerStr lvl == "beginner" then -(1/10)
         else if lowerStr lvl == "intermediate" then 0
         else if lowerStr lvl == "advanced" then 1/10 else 0) +
        min ((n : ℚ) * (5/100)) (2/10)) (1/10)) 1)
    ∧ 1/10 ≤ calculateDifficulty g p lvl n ∧ calculateDifficulty g p lvl n ≤ 1 := by
  refine ⟨?_, ?_, ?_⟩
  · unfold calculateDifficulty levelFactor
    ring_nf
  · unfold calculateDifficulty
    have hx : (1:ℚ)/10 ≤ min (max (g + p * (1/2) + levelFactor lvl +
        min ((n : ℚ) * (5/100)) (2/10)) (1/10)) 1 :=
      le_min (le_max_right _ _) (by norm_num)
    have := round2_mono hx
    rwa [round2_tenth] at this
  · unfold calculateDifficulty
    have hx : min (max (g + p * (1/2) + levelFactor lvl +
        min ((n : ℚ) * (5/100)) (2/10)) (1/10)) 1 ≤ 1 := min_le_right _ _
    have := round2_mono hx
    rwa [round2_one] at this

/-! ## Preservation lemmas for the skill lists built by
`identify_skills` -/

lemma updateFirstByNameMin_forall {Q : Skill → Prop} {l : List Skill} {nm : String}
    (hmin : ∀ s, Q s → Q { s with gap_level := min s.gap_level (2/10) })
    (h : ∀ s ∈ l, Q s) : ∀ s ∈ updateFirstByNameMin l nm, Q s := by
  induction l with
  | nil => intro s hs; cases hs
  | cons t rest ih =>
    intro s hs
    rw [updateFirstByNameMin] at hs
    by_cases hn : lowerStr t.name == lowerStr nm
    · rw [if_pos hn] at hs
      rcases List.mem_cons.mp hs with rfl | hs'
      · exact hmin t (h t (List.mem_cons_self t rest))
      · exact h s (List.mem_cons_of_mem t hs')
    · rw [if_neg hn] at hs
      rcases List.mem_cons.mp hs with rfl | hs'
      · exact h s (List.mem_cons_self s rest)
      · exact ih (fun x hx => h x (List.mem_cons_of_mem t hx)) s hs'

lemma augmentOne_forall {Q : Skill → Prop} {subject tier cat nm : String}
    {info : SkillInfo} {content : String} {skills : List Skill}
    (hmin : ∀ s, Q s → Q { s with gap_level := min s.gap_level (2/10) })
    (hnew : Q { id := subject ++ "_" ++ normName nm, name := nm, gap_level := 3/10,
                category := some cat, level := some (info.level.getD tier) })
    (h : ∀ s ∈ skills, Q s) :
    ∀ s ∈ augmentOne subject tier cat nm info content skills, Q s := by
  intro s hs
  rw [augmentOne] at hs
  by_cases hm : skillMatches content info
  · rw [if_pos hm] at hs
    by_cases hany : skills.any (fun s => lowerStr s.name == lowerStr nm)
    · rw [if_pos hany] at hs
      exact updateFirstByNameMin_forall hmin h s hs
    · rw [if_neg hany] at hs
      rcases List.mem_append.mp hs with hs' | hs'
      · exact h s hs'
      · rcases List.mem_singleton.mp hs' with rfl
        exact hnew
  · rw [if_neg hm] at hs
    exact h s hs

lemma augmentInner_forall {Q : Skill → Prop} (subject tier cat content : String)
    (hmin : ∀ s, Q s → Q { s with gap_level := min s.gap_level (2/10) })
    (hnew : ∀ (nm : String) (info : SkillInfo),
      Q { id := subject ++ "_" ++ normName nm, name := nm, gap_level := 3/10,
          category := some cat, level := some (info.level.getD tier) }) :
    ∀ (items : AList SkillInfo) (acc : List Skill), (∀ s ∈ acc, Q s) →
      ∀ s ∈ items.foldl (fun a si => augmentOne subject tier cat si.1 si.2 content a) acc, Q s
  | [], acc, h => by
    intro s hs
    exact h s hs
  | si :: rest, acc, h => by
    intro s hs
    rw [List.foldl_cons] at hs
    exact augmentInner_forall subject tier cat content hmin hnew rest _
      (augmentOne_forall hmin (hnew si.1 si.2) h) s hs

lemma augmentSkills_forall {Q : Skill → Prop} (subject tier content : String)
    (hmin : ∀ s, Q s → Q { s with gap_level := min s.gap_level (2/10) })
    (hnew : ∀ (cat nm : String) (info : SkillInfo),
      Q { id := subject ++ "_" ++ normName nm, name := nm, gap_level := 3/10,
          category := some cat, level := some (info.level.getD tier) }) :
    ∀ (tax : Taxonomy) (skills : List Skill), (∀ s ∈ skills, Q s) →
      ∀ s ∈ augmentSkills subject tier tax content skills, Q s
  | [], skills, h => by
    intro s hs
    exact h s hs
  | ci :: rest, skills, h => by
    intro s hs
    rw [augmentSkills, List.foldl_cons] at hs
    have hstep := augmentInner_forall subject tier ci.1 content hmin (hnew ci.1) ci.2 skills h
    exact augmentSkills_forall subject tier content hmin hnew rest _ hstep s hs

lemma identifySkills_forall {Q : Skill → Prop} {st : AgentState} {student : Student}
    {subject : String} {content : Option String}
    (hbase : ∀ tier : String, ∀ s ∈ mapSkillsForSubject subject tier, Q s)
    (hmin : ∀ s, Q s → Q { s with gap_level := min s.gap_level (2/10) })
    (hnew : ∀ (tier cat nm : String) (info : SkillInfo),
      Q { id := subject ++ "_" ++ normName nm, name := nm, gap_level := 3/10,
          category := some cat, level := some (info.level.getD tier) }) :
    ∀ s ∈ (identifySkills st student subject content).1, Q s := by
  intro s hs
  rcases content with _ | c
  · simp only [identifySkills] at hs
    exact hbase _ s hs
  · simp only [identifySkills] at hs
    by_cases he : c.isEmpty
    · rw [if_pos he] at hs
      exact hbase _ s hs
    · rw [if_neg he] at hs
      exact augmentSkills_forall subject _ c hmin (hnew _) _ _
        (fun x hx => hbase _ x hx) s hs

/-! ## Range lemmas feeding the gap-level invariant -/

lemma all_gapInRange_iff {l : List Skill} :
    l.all gapInRange = true ↔ ∀ s ∈ l, 0 ≤ s.gap_level ∧ s.gap_level ≤ 1 := by
  simp [gapInRange, List.all_eq_true]

lemma mapSkillsForSubject_range (subject tier : String) :
    ∀ s ∈ mapSkillsForSubject subject tier, 0 ≤ s.gap_level ∧ s.gap_level ≤ 1 := by
  rw [← all_gapInRange_iff]
  unfold mapSkillsForSubject
  repeat' split
  all_goals with_unfolding_all decide

lemma identifySkills_range (st : AgentState) (student : Student) (subject : String)
    (content : Option String) :
    ∀ s ∈ (identifySkills st student subject content).1,
      0 ≤ s.gap_level ∧ s.gap_level ≤ 1 := by
  refine identifySkills_forall (fun tier => mapSkillsForSubject_range subject tier) ?_ ?_
  · intro s hs
    constructor
    · exact le_min hs.1 (by norm_num)
    · exact le_trans (min_le_left _ _) hs.2
  · intro tier cat nm info
    constructor <;> norm_num

lemma updateFirstSkillGap_range {l : List Skill} {skid : String} {cs : ℚ}
    (hcs : 0 ≤ cs) (h : ∀ s ∈ l, 0 ≤ s.gap_level ∧ s.gap_level ≤ 1) :
    ∀ s ∈ updateFirstSkillGap l skid cs, 0 ≤ s.gap_level ∧ s.gap_level ≤ 1 := by
  induction l with
  | nil => intro s hs; cases hs
  | cons t rest ih =>
    intro s hs
    rw [updateFirstSkillGap] at hs
    by_cases hid : t.id == skid
    · rw [if_pos hid] at hs
      rcases List.mem_cons.mp hs with rfl | hs'
      · exact ⟨adjustGap_nonneg _ _,
          adjustGap_le_one (h t (List.mem_cons_self t rest)).2 hcs⟩
      · exact h s (List.mem_cons_of_mem t hs')
    · rw [if_neg hid] at hs
      rcases List.mem_cons.mp hs with rfl | hs'
      · exact h s (List.mem_cons_self s rest)
      · exact ih (fun x hx => h x (List.mem_cons_of_mem t hx)) s hs'

lemma updateSkillGapRecords_gapInv {recs : List Record} {sid subj skid : String} {cs : ℚ}
    (hcs : 0 ≤ cs) (h : gapInv recs = true) :
    gapInv (updateSkillGapRecords recs sid subj skid cs).1 = true := by
  induction recs with
  | nil => rfl
  | cons r rest ih =>
    simp only [gapInv, List.all_cons, Bool.and_eq_true] at h
    cases r with
    | assessment a =>
      rw [updateSkillGapRecords]
      simp only [gapInv, List.all_cons, Bool.and_eq_true]
      refine ⟨?_, ih h.2⟩
      by_cases hm : (a.student_id == sid) = true ∧ (a.subject == subj) = true
      · rw [if_pos hm]
        have := h.1
        simp only [recInv] at this ⊢
        rw [all_gapInRange_iff] at this ⊢
        exact updateFirstSkillGap_range hcs this
      · rw [if_neg hm]
        exact h.1
    | skillProgress p =>
      rw [updateSkillGapRecords]
      by_cases hp : (p.student_id == sid) = true
      · rw [if_pos hp]
        simp only [gapInv, List.all_cons, Bool.and_eq_true]
        exact ⟨h.1, h.2⟩
      · rw [if_neg hp]
        simp only [gapInv, List.all_cons, Bool.and_eq_true]
        exact ⟨h.1, ih h.2⟩

lemma gapInv_append {a b : List Record} :
    gapInv (a ++ b) = (gapInv a && gapInv b) := List.all_append

lemma updateLearningHistory_records (st : AgentState) (sid subj skid : String)
    (cs : ℚ) (fb : Option String) :
    (updateLearningHistory st sid subj skid cs fb).skill_records = st.skill_records := rfl

lemma getLearningHistory_records (st : AgentState) (sid subj : String) :
    ((getLearningHistory st sid subj).2).skill_records = st.skill_records := rfl

lemma identifySkills_gapInv {st : AgentState} {student : Student} {subject : String}
    {content : Option String} (h : gapInv st.skill_records = true) :
    gapInv (identifySkills st student subject content).2.skill_records = true := by
  have hrec : (identifySkills st student subject content).2.skill_records
      = st.skill_records ++ [.assessment
          { student_id := student.id, subject := subject,
            current_level := algetD student.progress subject 0,
            tier := tierFor (algetD student.progress subject 0),
            skills := (identifySkills st student subject content).1 }] := rfl
  rw [hrec, gapInv_append, h]
  simp only [Bool.true_and, gapInv, List.all_cons, List.all_nil, Bool.and_true, recInv]
  rw [all_gapInRange_iff]
  exact identifySkills_range st student subject content

lemma updateSkillGap_gapInv {st : AgentState} {sid subj skid : String} {cs : ℚ}
    (hcs : 0 ≤ cs) (h : gapInv st.skill_records = true) :
    gapInv ((updateSkillGap st sid subj skid cs).1).skill_records = true := by
  have hrec : ((updateSkillGap st sid subj skid cs).1).skill_records
      = (updateSkillGapRecords st.skill_records sid subj skid cs).1 := rfl
  rw [hrec]
  exact updateSkillGapRecords_gapInv hcs h

/-! ## Helper lemmas about the stable descending sort -/

lemma insertGapDesc_perm (s : Skill) (l : List Skill) :
    List.Perm (insertGapDesc s l) (s :: l) := by
  induction l with
  | nil => exact List.Perm.refl _
  | cons t rest ih =>
    rw [insertGapDesc]
    by_cases h : s.gap_level < t.gap_level
    · rw [if_pos h]
      exact (ih.cons t).trans (List.Perm.swap s t rest)
    · rw [if_neg h]

lemma sortGapDesc_perm (l : List Skill) : List.Perm (sortGapDesc l) l := by
  induction l with
  | nil => exact List.Perm.refl _
  | cons s rest ih =>
    exact (insertGapDesc_perm s (sortGapDesc rest)).trans (ih.cons s)

lemma pairwise_insertGapDesc {s : Skill} {l : List Skill}
    (h : l.Pairwise (fun a b => b.gap_level ≤ a.gap_level)) :
    (insertGapDesc s l).Pairwise (fun a b => b.gap_level ≤ a.gap_level) := by
  induction l with
  | nil => simp [insertGapDesc]
  | cons t rest ih =>
    rw [List.pairwise_cons] at h
    rw [insertGapDesc]
    by_cases hlt : s.gap_level < t.gap_level
    · rw [if_pos hlt]
      rw [List.pairwise_cons]
      refine ⟨?_, ih h.2⟩
      intro x hx
      rcases List.mem_cons.mp (((insertGapDesc_perm s rest).mem_iff).mp hx) with rfl | hx'
      · exact le_of_lt hlt
      · exact h.1 x hx'
    · rw [if_neg hlt]
      rw [List.pairwise_cons]
      refine ⟨?_, List.pairwise_cons.mpr h⟩
      intro x hx
      rcases List.mem_cons.mp hx with rfl | hx'
      · exact le_of_not_lt hlt
      · exact le_trans (h.1 x hx') (le_of_not_lt hlt)

lemma sortGapDesc_pairwise (l : List Skill) :
    (sortGapDesc l).Pairwise (fun a b => b.gap_level ≤ a.gap_level) := by
  induction l with
  | nil => simp [sortGapDesc]
  | cons s rest ih => exact pairwise_insertGapDesc ih

lemma filter_insertGapDesc (q : ℚ) (s : Skill) (l : List Skill) :
    (insertGapDesc s l).filter (fun t => decide (t.gap_level = q)) =
      if s.gap_level = q then s :: l.filter (fun t => decide (t.gap_level = q))
      else l.filter (fun t => decide (t.gap_level = q)) := by
  induction l with
  | nil =>
    rw [insertGapDesc]
    by_cases hsq : s.gap_level = q <;> simp [List.filter_cons, hsq]
  | cons t rest ih =>
    rw [insertGapDesc]
    by_cases hlt : s.gap_level < t.gap_level
    · rw [if_pos hlt]
      by_cases hsq : s.gap_level = q
      · have htq : ¬ t.gap_level = q := by
          intro h
          rw [h, ← hsq] at hlt
          exact lt_irrefl _ hlt
        simp [List.filter_cons, htq, hsq, ih]
      · simp [List.filter_cons, hsq, ih]
    · rw [if_neg hlt]
      by_cases hsq : s.gap_level = q
      · simp [List.filter_cons, hsq]
      · simp [List.filter_cons, hsq]

lemma sortGapDesc_filter (q : ℚ) (l : List Skill) :
    (sortGapDesc l).filter (fun t => decide (t.gap_level = q)) =
      l.filter (fun t => decide (t.gap_level = q)) := by
  induction l with
  | nil => rfl
  | cons s rest ih =>
    rw [sortGapDesc, filter_insertGapDesc]
    by_cases hsq : s.gap_level = q
    · rw [if_pos hsq, ih]
      simp [List.filter_cons, hsq]
    · rw [if_neg hsq, ih]
      simp [List.filter_cons, hsq]

lemma enumFrom_map_mkExercise_skill_id (subject : String) (student : Student)
    (history : AList HistEntry) :
    ∀ (n : ℕ) (l : List Skill),
      ((List.enumFrom n l).map
        (fun p => (mkExercise subject student history p.1 p.2).skill_id)) =
        l.map (·.id)
  | _, [] => rfl
  | n, s :: rest => by
    simp only [List.enumFrom, List.map_cons]
    rw [enumFrom_map_mkExercise_skill_id subject student history (n + 1) rest]
    rfl

/-! ## C8: exercise count and ordering of `recommend_exercises` -/

/-- C8.  `recommend_exercises` returns at most `count` exercises; the
candidate skills are those with `gap_level > 0.4` (all identified
skills when none qualify); the exercises are generated from the
candidates in order of descending `gap_level` — the sorted candidate
list is a permutation of the candidates, its gaps are pairwise
non-increasing, and equal-gap skills keep their prior relative order
(filtering the sorted list to any fixed gap value yields exactly the
candidates with that gap in their original order). -/
theorem C8_recommendExercises_count_and_order (st : AgentState) (student : Student)
    (subject : String) (count : ℕ) (content : Option String) :
    (recommendExercises st student subject count content).1.length ≤ count
    ∧ (recommendExercises st student subject count content).1.map (·.skill_id) =
        ((sortGapDesc (candidateSkills (identifySkills st student subject content).1)).take
          count).map (·.id)
    ∧ candidateSkills (identifySkills st student subject content).1 =
        (if ((identifySkills st student subject content).1.filter
              (fun s => decide ((4:ℚ)/10 < s.gap_level))).isEmpty then
          (identifySkills st student subject content).1
        else
          (identifySkills st student subject content).1.filter
            (fun s => decide ((4:ℚ)/10 < s.gap_level)))
    ∧ (sortGapDesc (candidateSkills (identifySkills st student subject content).1)).Pairwise
        (fun a b => b.gap_level ≤ a.gap_level)
    ∧ List.Perm (sortGapDesc (candidateSkills (identifySkills st student subject content).1))
        (candidateSkills (identifySkills st student subject content).1)
    ∧ ∀ q : ℚ,
        (sortGapDesc (candidateSkills (identifySkills st student subject content).1)).filter
            (fun s => decide (s.gap_level = q)) =
          (candidateSkills (identifySkills st student subject content).1).filter
            (fun s => decide (s.gap_level = q)) := by
  refine ⟨?_, ?_, rfl, sortGapDesc_pairwise _, sortGapDesc_perm _, fun q => sortGapDesc_filter q _⟩
  · unfold recommendExercises
    simp only [List.length_map, List.enum_length, List.length_take]
    exact min_le_left _ _
  · unfold recommendExercises
    simp only [List.map_map]
    exact enumFrom_map_mkExercise_skill_id subject student _ 0 _

/-! ## C6: content augmentation in `identify_skills` -/

/-- C6.  For every taxonomy skill matching the content (some keyword
as a case-insensitive substring, or some pattern case-insensitively):
if a skill with the same name (case-insensitive) is already in the
result list, the first such skill's `gap_level` becomes
`min(current, 0.2)`; otherwise a new skill is appended with
`gap_level = 0.3`, the taxonomy category, and `level` from the
taxonomy entry (defaulting to the tier when absent).  In particular,
for `content = "Let's practice addition: 2 + 3 = 5"` on the beginner
math student, the `addition` skill appears in the returned list with
gap `0.3` (it is not among the canned base skills). -/
theorem C6_identifySkills_content_augmentation :
    (∀ (subject tier cat nm : String) (info : SkillInfo) (content : String)
        (skills : List Skill),
      skillMatches content info = true →
      augmentOne subject tier cat nm info content skills =
        (if skills.any (fun s => lowerStr s.name == lowerStr nm) then
          updateFirstByNameMin skills nm
        else
          skills ++ [{ id := subject ++ "_" ++ normName nm, name := nm,
                       gap_level := 3/10, category := some cat,
                       level := some (info.level.getD tier) }]))
    ∧ (∀ (xs : List Skill) (s : Skill) (ys : List Skill) (nm : String),
        (∀ x ∈ xs, lowerStr x.name ≠ lowerStr nm) → lowerStr s.name = lowerStr nm →
        updateFirstByNameMin (xs ++ s :: ys) nm =
          xs ++ { s with gap_level := min s.gap_level (2/10) } :: ys)
    ∧ (⟨"math_addition", "addition", 3/10, some "arithmetic", some "beginner"⟩ : Skill) ∈
        (identifySkills initState student1 "math"
          (some "Let's practice addition: 2 + 3 = 5")).1 := by
  refine ⟨?_, ?_, ?_⟩
  · intro subject tier cat nm info content skills h
    unfold augmentOne
    rw [if_pos h]
  · intro xs s ys nm hxs hs
    induction xs with
    | nil =>
      simp only [List.nil_append, updateFirstByNameMin]
      rw [if_pos (by simpa using hs)]
    | cons x rest ih =>
      have hx : (lowerStr x.name == lowerStr nm) = false := by
        simpa using hxs x (List.mem_cons_self x rest)
      simp only [List.cons_append, updateFirstByNameMin]
      rw [if_neg (by simp [hx])]
      exact congrArg (x :: ·) (ih (fun y hy => hxs y (List.mem_cons_of_mem x hy)))
  · with_unfolding_all decide

/-- Witness for C6: the `addition` taxonomy entry against lowered
matching content over the canned beginner math skills (append branch),
and a one-element list whose head matches by name up to case (update
branch). -/
theorem C6_identifySkills_content_augmentation_witness :
    (augmentOne "math" "beginner" "arithmetic" "addition"
        { level := some "beginner", description := "Ability to add numbers",
          keywords := ["add", "sum", "plus", "addition"],
          patterns := [[rDigits, rSpaces, rChar '+', rSpaces, rDigits]] }
        "Let's practice addition: 2 + 3 = 5"
        (mapSkillsForSubject "math" "beginner") =
      (if (mapSkillsForSubject "math" "beginner").any
            (fun s => lowerStr s.name == lowerStr "addition") then
        updateFirstByNameMin (mapSkillsForSubject "math" "beginner") "addition"
      else
        mapSkillsForSubject "math" "beginner" ++
          [{ id := "math" ++ "_" ++ normName "addition", name := "addition",
             gap_level := 3/10, category := some "arithmetic",
             level := some ((some "beginner").getD "beginner") }]))
    ∧ updateFirstByNameMin
        ([] ++ (⟨"math_addition", "Addition", 3/10, some "arithmetic", some "beginner"⟩ : Skill) :: [])
        "addition" =
      [] ++ ({ (⟨"math_addition", "Addition", 3/10, some "arithmetic", some "beginner"⟩ : Skill) with
               gap_level := min (3/10 : ℚ) (2/10) } : Skill) :: [] :=
  ⟨C6_identifySkills_content_augmentation.1 "math" "beginner" "arithmetic" "addition"
      { level := some "beginner", description := "Ability to add numbers",
        keywords := ["add", "sum", "plus", "addition"],
        patterns := [[rDigits, rSpaces, rChar '+', rSpaces, rDigits]] }
      "Let's practice addition: 2 + 3 = 5"
      (mapSkillsForSubject "math" "beginner") (by with_unfolding_all decide),
   C6_identifySkills_content_augmentation.2.1 []
      (⟨"math_addition", "Addition", 3/10, some "arithmetic", some "beginner"⟩ : Skill) []
      "addition" (by simp) (by with_unfolding_all decide)⟩

/-! ## C7: gap adjustment is monotone and hits the sample value -/

/-- C7.  The gap adjustment writes
`round(max(0.0, current_gap - completion_status * 0.2), 2)`; for every
stored gap level (gap levels are always whole hundredths: the seeded
constants, `0.3`, `min(·, 0.2)` of those, and `round(·, 2)` outputs)
and every completion status in `[0, 1]` the new gap never exceeds the
old one, and adjusting a gap of `0.5` with completion `1.0` yields
exactly `0.3`. -/
theorem C7_adjustGap_monotone_and_value :
    (∀ (g cs : ℚ), (∃ n : ℕ, g = (n : ℚ) / 100) → 0 ≤ cs → cs ≤ 1 →
      adjustGap g cs ≤ g)
    ∧ adjustGap (5/10) 1 = 3/10 := by
  constructor
  · rintro g cs ⟨n, rfl⟩ hcs _
    have hg0 : (0:ℚ) ≤ (n : ℚ) / 100 := by positivity
    have hround : round2 ((n : ℚ) / 100) = (n : ℚ) / 100 := by
      have := round2_intCast (n : ℤ)
      push_cast at this
      exact this
    exact adjustGap_le_self hg0 hround hcs
  · with_unfolding_all decide

/-- Witness for C7 at `g = 0.5 = 50/100`, `cs = 1`. -/
theorem C7_adjustGap_monotone_and_value_witness :
    adjustGap ((50 : ℕ) / 100 : ℚ) 1 ≤ ((50 : ℕ) / 100 : ℚ) ∧ adjustGap (5/10) 1 = 3/10 :=
  ⟨C7_adjustGap_monotone_and_value.1 ((50 : ℕ) / 100 : ℚ) 1 ⟨50, by norm_num⟩
      (by norm_num) (le_refl 1),
   C7_adjustGap_monotone_and_value.2⟩

/-! ## C9: the gap-level range invariant -/

/-- C9.  Every skill's `gap_level` stays in `[0, 1]` across every core
operation: `identify_skills` (seeded constants in range, augmentation
writes `min(current, 0.2)` or `0.3`), `recommend_exercises`,
`generate_skill_development_plan`, `track_progress` (with a
nonnegative completion status), `track_skill_progress` (with
nonnegative scores), and `_update_skill_gap` itself (with a
nonnegative completion status), whose write
`round(max(0.0, current - reduction), 2)` cannot leave the interval. -/
theorem C9_gap_level_invariant :
    (∀ (st : AgentState) (student : Student) (subject : String) (content : Option String),
      gapInv st.skill_records = true →
      gapInv (identifySkills st student subject content).2.skill_records = true)
    ∧ (∀ (st : AgentState) (student : Student) (subject : String) (count : ℕ)
        (content : Option String),
      gapInv st.skill_records = true →
      gapInv (recommendExercises st student subject count content).2.skill_records = true)
    ∧ (∀ (st : AgentState) (student : Student) (subject : String),
      gapInv st.skill_records = true →
      gapInv (generatePlan st student subject).2.skill_records = true)
    ∧ (∀ (st : AgentState) (student : Student) (eid : String) (cs : ℚ) (fb : Option String),
      0 ≤ cs → gapInv st.skill_records = true →
      gapInv (trackProgress st student eid cs fb).2.2.skill_records = true)
    ∧ (∀ (st : AgentState) (student : Student) (skid : String) (results : List ExResult),
      scoresNonneg results = true → gapInv st.skill_records = true →
      gapInv (trackSkillProgress st student skid results).2.skill_records = true)
    ∧ (∀ (st : AgentState) (sid subj skid : String) (cs : ℚ),
      0 ≤ cs → gapInv st.skill_records = true →
      gapInv ((updateSkillGap st sid subj skid cs).1).skill_records = true) := by
  refine ⟨?_, ?_, ?_, ?_, ?_, ?_⟩
  · intro st student subject content h
    exact identifySkills_gapInv h
  · intro st student subject count content h
    exact identifySkills_gapInv h
  · intro st student subject h
    simp only [generatePlan]
    exact identifySkills_gapInv h
  · intro st student eid cs fb hcs h
    simp only [trackProgress]
    split
    · exact h
    · exact h
    · split
      · exact h
      · split
        · exact updateSkillGap_gapInv hcs h
        · exact updateSkillGap_gapInv hcs h
  · intro st student skid results hsc h
    have hall : ∀ r ∈ results, (0:ℚ) ≤ r.score.getD 0 := by
      intro r hr
      have := List.all_eq_true.mp hsc r hr
      simpa using this
    have hpl : (0:ℚ) ≤ min 1
        ((if (results.map (fun r => r.score.getD 0)).isEmpty then 0
          else (results.map (fun r => r.score.getD 0)).sum /
            ((results.map (fun r => r.score.getD 0)).length : ℚ)) / 100) := by
      refine le_min (by norm_num) (div_nonneg ?_ (by norm_num))
      split
      · exact le_refl 0
      · refine div_nonneg (List.sum_nonneg ?_) (by positivity)
        intro x hx
        rcases List.mem_map.mp hx with ⟨r, hr, rfl⟩
        exact hall r hr
    have hst1 : gapInv (st.skill_records ++
        [Record.skillProgress
          { student_id := student.id, skill_id := skid,
            exercise_count := results.length,
            average_score := if (results.map (fun r => r.score.getD 0)).isEmpty then 0
              else (results.map (fun r => r.score.getD 0)).sum /
                ((results.map (fun r => r.score.getD 0)).length : ℚ),
            progress_level := min 1
              ((if (results.map (fun r => r.score.getD 0)).isEmpty then 0
                else (results.map (fun r => r.score.getD 0)).sum /
                  ((results.map (fun r => r.score.getD 0)).length : ℚ)) / 100),
            completed_exercises := results.map (·.id) }]) = true := by
      rw [gapInv_append, h]
      rfl
    simp only [trackSkillProgress]
    split
    · exact hst1
    · exact hst1
    · split
      · exact updateSkillGap_gapInv hpl hst1
      · exact updateSkillGap_gapInv hpl hst1
  · intro st sid subj skid cs hcs h
    exact updateSkillGap_gapInv hcs h

/-- Witness for C9: all six operations applied from states whose
stores satisfy the invariant. -/
theorem C9_gap_level_invariant_witness :
    gapInv (identifySkills initState student1 "math" none).2.skill_records = true
    ∧ gapInv (recommendExercises initState student1 "math" 3 none).2.skill_records = true
    ∧ gapInv (generatePlan initState student1 "math").2.skill_records = true
    ∧ gapInv (trackProgress stMath student1 "exercise_math_fractions_0" 1 none).2.2.skill_records
        = true
    ∧ gapInv (trackSkillProgress initState student1 "math_fractions" []).2.skill_records = true
    ∧ gapInv ((updateSkillGap stMath "s1" "math" "math_fractions" 1).1).skill_records = true :=
  ⟨C9_gap_level_invariant.1 initState student1 "math" none rfl,
   C9_gap_level_invariant.2.1 initState student1 "math" 3 none rfl,
   C9_gap_level_invariant.2.2.1 initState student1 "math" rfl,
   C9_gap_level_invariant.2.2.2.1 stMath student1 "exercise_math_fractions_0" 1 none
     (by norm_num) (by with_unfolding_all decide),
   C9_gap_level_invariant.2.2.2.2.1 initState student1 "math_fractions" [] rfl rfl,
   C9_gap_level_invariant.2.2.2.2.2 stMath "s1" "math" "math_fractions" 1
     (by norm_num) (by with_unfolding_all decide)⟩

/-! ## C10: which skills carry all five fields -/

lemma mapSkillsForSubject_fields (subject tier : String) :
    ∀ s ∈ mapSkillsForSubject subject tier, s.category = none ∧ s.level = none := by
  have hb : (mapSkillsForSubject subject tier).all
      (fun s => s.category.isNone && s.level.isNone) = true := by
    unfold mapSkillsForSubject
    repeat' split
    all_goals decide
  intro s hs
  have := List.all_eq_true.mp hb s hs
  simp only [Bool.and_eq_true, Option.isNone_iff_eq_none] at this
  exact this

/-- C10 (counterexample).  The skills returned by `identify_skills`
for the beginner math student do NOT all carry the five fields of the
Skill data model: the canned base skills built by
`_map_skills_for_subject` have no `category` and no `level` key. -/
theorem C10_counterexample_base_skills_lack_fields :
    ((identifySkills initState student1 "math" none).1.all
      (fun s => s.category.isSome && s.level.isSome)) = false := by
  with_unfolding_all decide

/-- C10 (amended).  Canned base skills carry only `id`, `name` and
`gap_level` (their `category` and `level` are absent and defaulted on
read); every skill returned by `identify_skills` either has that base
shape or — when appended by the content augmentation — carries all
five fields including `category` and `level`. -/
theorem C10_amended_field_shapes :
    (∀ subject tier : String, ∀ s ∈ mapSkillsForSubject subject tier,
        s.category = none ∧ s.level = none)
    ∧ (∀ (st : AgentState) (student : Student) (subject : String)
        (content : Option String), ∀ s ∈ (identifySkills st student subject content).1,
          (s.category = none ∧ s.level = none) ∨
          (s.category.isSome = true ∧ s.level.isSome = true)) := by
  constructor
  · exact mapSkillsForSubject_fields
  · intro st student subject content
    refine identifySkills_forall ?_ ?_ ?_
    · intro tier s hs
      exact Or.inl (mapSkillsForSubject_fields subject tier s hs)
    · intro s hQ
      exact hQ
    · intro tier cat nm info
      exact Or.inr ⟨rfl, rfl⟩

/-- Witness for the amended C10: a canned base skill has no
`category`/`level`, and the first returned skill of the end-to-end
scenario has the base shape. -/
theorem C10_amended_field_shapes_witness :
    ((baseSkill "math_fractions" "Fractions" (5/10)).category = none
      ∧ (baseSkill "math_fractions" "Fractions" (5/10)).level = none)
    ∧ (((baseSkill "math_basic_arithmetic" "Basic Arithmetic" (2/10)).category = none
        ∧ (baseSkill "math_basic_arithmetic" "Basic Arithmetic" (2/10)).level = none)
      ∨ ((baseSkill "math_basic_arithmetic" "Basic Arithmetic" (2/10)).category.isSome = true
        ∧ (baseSkill "math_basic_arithmetic" "Basic Arithmetic" (2/10)).level.isSome = true)) :=
  ⟨C10_amended_field_shapes.1 "math" "beginner"
      (baseSkill "math_fractions" "Fractions" (5/10)) (by with_unfolding_all decide),
   C10_amended_field_shapes.2 initState student1 "math" none
      (baseSkill "math_basic_arithmetic" "Basic Arithmetic" (2/10))
      (by with_unfolding_all decide)⟩

end SkillDev
